import Mathlib

/-!
# Verification of the Personal-Growth-OS agent-orchestration core

Shallow embedding, in Lean 4, of the control-flow core of the
Personal-Growth-OS backend: the orchestrator specialist graph
(`app/agents/orchestrator/graph.py`, `state.py`), the deep-researcher
supervisor subgraph (`app/agents/deep_researcher/supervisor_graph.py`,
`state.py`) and their shared state/merge primitives.  Language-model
completions and capability (tool) executions are modelled as explicit
oracles: total functions from the data the Python code hands to the
model/tool to the value the Python code reads back.  Python exceptions
are modelled with `Except`; where the source catches an exception, the
embedding matches on the `Except` value.
-/

namespace PGOS

/-! ## Messages

Embeds the `langchain_core.messages` classes the graphs use:
`SystemMessage`, `HumanMessage`, `AIMessage` (which carries `tool_calls`)
and `ToolMessage`. -/

/-- A model-requested capability invocation (`tool_call` dict in the
source: `{name, args, id}`); the argument payload is kept abstract as a
string. -/
structure ToolCall where
  name : String
  args : String
  id : String
  deriving DecidableEq, Repr

/-- A message in a conversation transcript. -/
inductive Msg where
  | system (content : String)
  | human (content : String)
  | ai (content : String) (tool_calls : List ToolCall)
  | tool (content : String) (tool_call_id : String) (name : String)
  deriving DecidableEq, Repr

/-- `isinstance(m, SystemMessage)`. -/
def Msg.isSystem : Msg → Bool
  | .system _ => true
  | _ => false

/-- `isinstance(m, HumanMessage)`. -/
def Msg.isHuman : Msg → Bool
  | .human _ => true
  | _ => false

/-- `isinstance(m, AIMessage)`. -/
def Msg.isAI : Msg → Bool
  | .ai _ _ => true
  | _ => false

/-- The `tool_calls` attribute of an `AIMessage` (empty on other kinds,
which is how the source treats a missing attribute only on `AIMessage`
values it has already `isinstance`-checked). -/
def Msg.toolCalls : Msg → List ToolCall
  | .ai _ tcs => tcs
  | _ => []

/-- `next((m for m in reversed(msgs) if isinstance(m, P)), None)` —
the last message satisfying `p`, scanning from the end. -/
def lastMsgWhere (p : Msg → Bool) : List Msg → Option Msg
  | [] => none
  | m :: rest =>
    match lastMsgWhere p rest with
    | some r => some r
    | none => if p m then some m else none

/-- The `content` attribute of a message. -/
def Msg.content : Msg → String
  | .system c => c
  | .human c => c
  | .ai c _ => c
  | .tool c _ _ => c

/-! ## Python string primitives used by the router -/

/-- `p.isPrefixOf s` on character lists, written out. -/
def beginsWith : List Char → List Char → Bool
  | _, [] => true
  | [], _ :: _ => false
  | c :: cs, p :: ps => c == p && beginsWith cs ps

/-- Python `pat in s` (substring test) on character lists. -/
def containsSubL (s pat : List Char) : Bool :=
  match s with
  | [] => pat.isEmpty
  | c :: rest => beginsWith (c :: rest) pat || containsSubL rest pat

/-- Python `pat in s` on strings. -/
def strContains (s pat : String) : Bool :=
  containsSubL s.data pat.data

/-- Python `s.lower()`: character-wise lowercasing.  (`Char.toLower`
agrees with Python on the ASCII letters and fixes CJK characters,
which is all the router's keyword lists exercise.) -/
def pyLower (s : String) : String :=
  ⟨s.data.map Char.toLower⟩

/-- Python truthiness of an `Optional[str]`: `None` and `""` are
falsy. -/
def pyTruthyStr : Option String → Bool
  | some s => !s.isEmpty
  | none => false

/-! ## Sliding window (`app/agents/orchestrator/state.py`,
`apply_sliding_window`) -/

/-- `apply_sliding_window(messages, window_size)`: keep every
`SystemMessage`, then the most recent `window_size` non-system
messages, system block first. -/
def apply_sliding_window (messages : List Msg) (window_size : Nat := 10) :
    List Msg :=
  let system_msgs := messages.filter Msg.isSystem
  let other_msgs := messages.filter (fun m => !m.isSystem)
  let other_msgs :=
    if other_msgs.length > window_size then
      other_msgs.drop (other_msgs.length - window_size)
    else other_msgs
  system_msgs ++ other_msgs

/-! ## Override-or-append reducer (`app/agents/deep_researcher/state.py`,
`override_reducer`)

The reducer receives arbitrary Python values; the update is either a
dict (possibly an `{"type": "override", "value": v}` envelope) or a
list to be concatenated.  `PyVal` embeds the fragment of Python values
the reducer can see; `operator.add` on anything but two lists raises
`TypeError`, embedded as `Except.error`. -/

/-- The Python values flowing through `override_reducer`: strings,
lists, dicts (assoc lists with unique keys, first binding wins as in a
Python dict) and `None`. -/
inductive PyVal where
  | vstr (s : String)
  | vlist (xs : List PyVal)
  | vdict (entries : List (String × PyVal))
  | vnone

mutual

/-- Structural equality on embedded Python values (Python `==` on the
fragment we use: strings, lists, dicts, `None`; values of different
kinds compare unequal, as in Python for these types). -/
def PyVal.beq : PyVal → PyVal → Bool
  | .vstr a, .vstr b => a == b
  | .vlist xs, .vlist ys => PyVal.beqList xs ys
  | .vdict xs, .vdict ys => PyVal.beqEntries xs ys
  | .vnone, .vnone => true
  | _, _ => false

/-- Pointwise equality of value lists. -/
def PyVal.beqList : List PyVal → List PyVal → Bool
  | [], [] => true
  | x :: xs, y :: ys => PyVal.beq x y && PyVal.beqList xs ys
  | _, _ => false

/-- Pointwise equality of dict entry lists. -/
def PyVal.beqEntries :
    List (String × PyVal) → List (String × PyVal) → Bool
  | [], [] => true
  | (k, v) :: xs, (l, w) :: ys =>
    k == l && PyVal.beq v w && PyVal.beqEntries xs ys
  | _, _ => false

end

instance : BEq PyVal := ⟨PyVal.beq⟩

/-- `d.get(key, default)` on a dict. -/
def dictGet (entries : List (String × PyVal)) (key : String)
    (default : PyVal) : PyVal :=
  match entries.find? (fun p => p.1 == key) with
  | some p => p.2
  | none => default

/-- `operator.add(current, new)` after the source's
`if current_value is None: current_value = []` guard: list
concatenation, `TypeError` otherwise. -/
def pyListAdd (current new : PyVal) : Except String PyVal :=
  let current := if current == PyVal.vnone then PyVal.vlist [] else current
  match current, new with
  | .vlist xs, .vlist ys => .ok (.vlist (xs ++ ys))
  | _, _ => .error "TypeError: can only concatenate list to list"

/-- `override_reducer(current_value, new_value)`: if the update is a
dict whose `"type"` equals `"override"`, return
`new_value.get("value", new_value)`; otherwise concatenate. -/
def override_reducer (current_value new_value : PyVal) :
    Except String PyVal :=
  match new_value with
  | .vdict entries =>
    if dictGet entries "type" .vnone == .vstr "override" then
      .ok (dictGet entries "value" (.vdict entries))
    else
      pyListAdd current_value new_value
  | _ => pyListAdd current_value new_value

/-! ## Task-decomposition schema (`app/agents/deep_researcher/state.py`,
`Subtask` and `TaskDecomposition`)

The pydantic models validate: `priority` with `ge=1, le=5`, and
`subtasks` with `min_length=3, max_length=5`.  The field
`minimum_viable_task_index` carries only a description — pydantic
applies no range constraint to it. -/

/-- A subtask record (`Subtask`). -/
structure Subtask where
  title : String
  description : String
  priority : Int
  deriving DecidableEq, Repr

/-- A task-decomposition record (`TaskDecomposition`). -/
structure TaskDecomposition where
  main_task_title : String
  main_task_description : String
  subtasks : List Subtask
  minimum_viable_task_index : Int
  deriving DecidableEq, Repr

/-- pydantic validation of one `Subtask`: `priority` has `ge=1, le=5`. -/
def Subtask.valid (s : Subtask) : Bool :=
  1 ≤ s.priority && s.priority ≤ 5

/-- pydantic validation of a `TaskDecomposition` value: `subtasks` has
`min_length=3, max_length=5` and each subtask validates; no constraint
is declared on `minimum_viable_task_index`. -/
def TaskDecomposition.valid (d : TaskDecomposition) : Bool :=
  3 ≤ d.subtasks.length && d.subtasks.length ≤ 5 &&
    d.subtasks.all Subtask.valid

/-! ## Router (`app/agents/orchestrator/graph.py`, `router_node`)

Layer 1 is a deterministic keyword scan; layer 2 issues one structured
classification request to the model and, when that returns `None`, a
second free-text request whose answer is JSON-scraped.  The model is an
oracle: `structuredRoute` is what `structured_model.invoke` produces
(`Except.error` = a raised exception, caught by the outer `except`),
`fallbackParsed` combines `model.invoke` on the simplified prompt with
the `re.search`/`json.loads` extraction (`Except.error` = exception in
the call, `.ok none` = no JSON found or JSON parse error, `.ok (some p)`
= the parsed object). -/

/-- `TASK_KEYWORDS` from `router_node`, verbatim. -/
def TASK_KEYWORDS : List String := [
  "创建任务", "新建任务", "添加任务", "建一个任务", "加一个任务",
  "新任务", "一个任务",
  "create task", "add task", "new task",
  "修改任务", "更新任务", "编辑任务", "改一下任务",
  "update task", "edit task", "modify task",
  "删除任务", "移除任务", "删掉任务",
  "delete task", "remove task",
  "查看任务", "列出任务", "任务列表", "有什么任务", "我的任务", "所有任务",
  "list task", "show task", "my task",
  "延后任务", "推迟任务", "暂停任务", "snooze",
  "完成任务", "标记完成", "任务完成",
  "complete task", "mark done", "finish task"]

/-- `NOTE_KEYWORDS` from `router_node`, verbatim. -/
def NOTE_KEYWORDS : List String := [
  "创建笔记", "新建笔记", "添加笔记", "写笔记",
  "搜索笔记", "查找笔记", "笔记搜索",
  "create note", "add note", "search note", "find note"]

/-- One entry of the skill catalog formatted into the routing prompt
(`registry.get_all_skill_descriptions()`). -/
structure SkillDescription where
  name : String
  description : String

/-- The router's structured decision model (`SkillActivation`). -/
structure SkillActivation where
  should_activate : Bool
  skill_name : Option String
  reason : String

/-- The JSON object scraped out of the free-text fallback response. -/
structure FallbackParsed where
  should_activate : Bool
  skill_name : Option String

/-- The model oracle for one `router_node` call. -/
structure RouterOracle where
  structuredRoute : Except String (Option SkillActivation)
  fallbackParsed : Except String (Option FallbackParsed)

/-- `router_node`: returns the `current_skill` update together with the
number of model invocations the call performed (0 on the keyword path,
1 when the structured call decides or raises, 2 when the free-text
fallback ran as well). -/
def router_node (skills : List SkillDescription) (oracle : RouterOracle)
    (messages : List Msg) : Option String × Nat :=
  match lastMsgWhere Msg.isHuman messages with
  | none => (none, 0)
  | some lastHuman =>
    let msg_lower := pyLower lastHuman.content
    if TASK_KEYWORDS.any (fun k => strContains msg_lower k) then
      (some "task_manager", 0)
    else if NOTE_KEYWORDS.any (fun k => strContains msg_lower k) then
      (some "note_manager", 0)
    else if skills.isEmpty then
      (none, 0)
    else
      match oracle.structuredRoute with
      | .error _ => (none, 1)
      | .ok (some decision) =>
        if decision.should_activate && pyTruthyStr decision.skill_name
        then (decision.skill_name, 1)
        else (none, 1)
      | .ok none =>
        match oracle.fallbackParsed with
        | .error _ => (none, 2)
        | .ok none => (none, 2)
        | .ok (some parsed) =>
          if parsed.should_activate && pyTruthyStr parsed.skill_name
          then (parsed.skill_name, 2)
          else (none, 2)

/-! ## Orchestrator state and merge
(`app/agents/orchestrator/state.py`, `OrchestratorState`)

`messages` is declared with the `add_messages` reducer; every other
field has the default replace reducer.  `add_messages` appends messages
whose id is new and replaces re-submitted messages in place; the claims
proved here only run it on freshly created messages, for which it is
plain append, so the merge is embedded as append.  A node's partial
update is a record of optional fields (`none` = key absent from the
returned dict). -/

/-- A UI command `{"type": t, "payload": {"target": tgt}}`. -/
structure UICmd where
  type : String
  target : String
  deriving DecidableEq, Repr

/-- `OrchestratorState`. -/
structure OrchState where
  messages : List Msg
  current_skill : Option String
  skill_sop : Option String
  available_tools : List String
  ui_commands : List UICmd
  iteration_count : Nat
  deriving Repr

/-- A partial state update returned by an orchestrator node (`none` =
field absent from the returned dict). -/
structure OrchUpdate where
  messages : Option (List Msg) := none
  current_skill : Option (Option String) := none
  skill_sop : Option (Option String) := none
  available_tools : Option (List String) := none
  ui_commands : Option (List UICmd) := none
  iteration_count : Option Nat := none

/-- Merge a node's partial update into the state: `messages` via the
append behaviour of `add_messages`, every other field by replacement
when the key is present. -/
def applyOrchUpdate (s : OrchState) (u : OrchUpdate) : OrchState where
  messages := s.messages ++ (u.messages.getD [])
  current_skill := u.current_skill.getD s.current_skill
  skill_sop := u.skill_sop.getD s.skill_sop
  available_tools := u.available_tools.getD s.available_tools
  ui_commands := u.ui_commands.getD s.ui_commands
  iteration_count := u.iteration_count.getD s.iteration_count

/-! ## Skill registry (`app/skills/registry.py`)

A registry is the set of skill documents present in the skills
directory.  `load_skill` raises `FileNotFoundError` when the named
document is absent (`Except.error` here); the mtime-keyed cache only
short-circuits re-parsing of an unchanged file and never changes the
returned value for a fixed directory, so it is not represented. -/

/-- A parsed skill document (`SkillDef`): the fields the orchestrator
reads. -/
structure SkillDef where
  name : String
  description : String
  tools : List String
  sop : String

/-- `SkillRegistry.load_skill`: resolve a skill by name or raise
`FileNotFoundError`. -/
def load_skill (registry : List SkillDef) (skill_name : String) :
    Except String SkillDef :=
  match registry.find? (fun sk => sk.name == skill_name) with
  | some sk => .ok sk
  | none => .error ("FileNotFoundError: Skill " ++ skill_name ++ " not found")

/-- `SkillRegistry.get_skill_sop_for_injection`: load the skill and wrap
its SOP with the injection envelope. -/
def get_skill_sop_for_injection (registry : List SkillDef)
    (skill_name : String) : Except String String :=
  (load_skill registry skill_name).map (fun skill =>
    "<skill name=\"" ++ skill.name ++ "\">\n" ++ skill.sop ++ "\n</skill>\n\n"
      ++ "Available tools for this skill: "
      ++ String.intercalate ", " skill.tools
      ++ "\n\nIMPORTANT: Follow the SOP above. When done, send appropriate UI commands to refresh data.")

/-! ## Tool registry (`app/tools/__init__.py`)

`get_tool(name)` raises `KeyError` when `name` is unregistered;
`get_tools_by_names` maps it over a list.  The registry is embedded as
the list of registered tool names; the behaviour of an invocation lives
in the execution oracle. -/

/-- `get_tools_by_names(names)`: all names must resolve, else the list
comprehension raises `KeyError` at the first unregistered name. -/
def get_tools_by_names (toolRegistry : List String)
    (names : List String) : Except String (List String) :=
  if names.all (fun n => toolRegistry.contains n) then .ok names
  else .error "KeyError"

/-! ## Loader (`app/agents/orchestrator/graph.py`, `loader_node`)

The body is wrapped in `try/except Exception`: a failed skill load is
caught and turned into the degraded update
`{"skill_sop": None, "available_tools": []}` — the node itself never
raises, which is why its embedding is a total function. -/

/-- `loader_node`. -/
def loader_node (registry : List SkillDef) (state : OrchState) :
    OrchUpdate :=
  match state.current_skill with
  | none => {}
  | some skill_name =>
    if skill_name.isEmpty then {} -- `if not skill_name: return {}`
    else
      match load_skill registry skill_name,
            get_skill_sop_for_injection registry skill_name with
      | .ok skill, .ok sop =>
        { skill_sop := some (some sop)
          available_tools := some skill.tools
          messages := some (apply_sliding_window state.messages 10)
          iteration_count := some 0 }
      | _, _ =>
        { skill_sop := some none
          available_tools := some [] }

/-! ## Specialist (`app/agents/orchestrator/graph.py`,
`specialist_node`)

The model is the oracle `complete` (an `Except.error` is a raised
exception from `invoke`, caught by the node's outer `try`); a tool
execution is the oracle `toolExec` (`Except.error` = the tool raised,
caught per-invocation). -/

/-- The model/tool oracle for one orchestrator run. -/
structure OrchOracle where
  route : RouterOracle
  complete : List Msg → Except String (String × List ToolCall)
  toolExec : String → String → Except String String
  idleComplete : List Msg → Except String String

/-- Execute one requested tool call: unknown names produce a
"not found" `ToolMessage`, a raising tool an "Error executing"
`ToolMessage`. -/
def execOneTool (tools : List String) (o : OrchOracle) (tc : ToolCall) :
    Msg :=
  if tools.contains tc.name then
    match o.toolExec tc.name tc.args with
    | .ok result => Msg.tool result tc.id tc.name
    | .error e =>
      Msg.tool ("Error executing " ++ tc.name ++ ": " ++ e) tc.id tc.name
  else
    Msg.tool ("Tool " ++ tc.name ++ " not found") tc.id tc.name

/-- Python `s.startswith(pat)`. -/
def strStarts (s pat : String) : Bool :=
  beginsWith s.data pat.data

/-- The UI-command loop at the end of the tool-call branch of
`specialist_node`: `break` after the first `task_`/`note_` match exits
the whole loop, so at most one refresh is ever produced. -/
def computeUICommands : List ToolCall → List UICmd
  | [] => []
  | tc :: rest =>
    if strStarts tc.name "task_" then
      [{ type := "refresh", target := "tasks" }]
    else if strStarts tc.name "note_" then
      [{ type := "refresh", target := "notes" }]
    else computeUICommands rest

/-- The prompt `specialist_node` sends to the model: the state's
messages plus the SOP as a trailing system message (suffix injection)
when `skill_sop` is truthy. -/
def specialistPrompt (state : OrchState) : List Msg :=
  state.messages ++
    (if pyTruthyStr state.skill_sop
     then [Msg.system (state.skill_sop.getD "")] else [])

/-- `specialist_node`. -/
def specialist_node (toolRegistry : List String) (o : OrchOracle)
    (state : OrchState) : OrchUpdate :=
  if state.available_tools.isEmpty then
    { messages := some [Msg.ai "No tools available for this skill." []]
      ui_commands := some [] }
  else
    match get_tools_by_names toolRegistry state.available_tools with
    | .error e =>
      { messages := some [Msg.ai ("Failed to load tools: " ++ e) []]
        ui_commands := some [] }
    | .ok tools =>
      let messages := specialistPrompt state
      match o.complete messages with
      | .error e =>
        { messages := some [Msg.ai ("Error during execution: " ++ e) []] }
      | .ok (content, tool_calls) =>
        let response := Msg.ai content tool_calls
        if tool_calls.isEmpty then
          { messages := some [response]
            iteration_count := some (state.iteration_count + 1) }
        else
          let tool_results := tool_calls.map (execOneTool tools o)
          let all_messages := messages ++ [response] ++ tool_results
          match o.complete all_messages with
          | .error e =>
            { messages :=
                some [Msg.ai ("Error during execution: " ++ e) []] }
          | .ok (final_content, final_tcs) =>
            let final_response := Msg.ai final_content final_tcs
            { messages :=
                some ([response] ++ tool_results ++ [final_response])
              iteration_count := some (state.iteration_count + 1)
              ui_commands := some (computeUICommands tool_calls) }

/-! ## Continuation check (`app/agents/orchestrator/graph.py`,
`continue_check`) -/

/-- `MAX_ITERATIONS` from graph.py. -/
def MAX_ITERATIONS : Nat := 15

/-- `continue_check`: clear `current_skill` when the iteration ceiling
is reached, when no `AIMessage` exists, or when the latest `AIMessage`
requested no tool calls; otherwise leave the state unchanged. -/
def continue_check (state : OrchState) : OrchUpdate :=
  if state.iteration_count ≥ MAX_ITERATIONS then
    { current_skill := some none }
  else
    match lastMsgWhere Msg.isAI state.messages with
    | none => { current_skill := some none }
    | some last_ai =>
      if last_ai.toolCalls.isEmpty then { current_skill := some none }
      else {}

/-! ## Idle response (`app/agents/orchestrator/graph.py`,
`idle_response_node`) -/

/-- The system prompt of `idle_response_node`; its exact text does not
affect control flow. -/
def idleSystemPrompt : String :=
  "You are a helpful personal assistant for a \"Personal Growth OS\" application.\n"
    ++ "You help users manage tasks and notes. Be friendly and concise."

/-- `idle_response_node`. -/
def idle_response_node (o : OrchOracle) (state : OrchState) :
    OrchUpdate :=
  match lastMsgWhere Msg.isHuman state.messages with
  | none => { messages := some [Msg.ai "Hi! How can I help you today?" []] }
  | some lastHuman =>
    match o.idleComplete
        [Msg.system idleSystemPrompt, Msg.human lastHuman.content] with
    | .ok resp => { messages := some [Msg.ai resp []] }
    | .error _ =>
      { messages := some [Msg.ai "Hi! How can I help you today?" []] }

/-! ## Orchestrator graph
(`app/agents/orchestrator/graph.py`, `create_orchestrator_graph`)

`router → (loader | idle)`, `loader → specialist → continue_check`,
`continue_check → (specialist | END)`, `idle → END`; the conditional
edges test the truthiness of `current_skill` on the merged state. -/

/-- Graph node names. -/
inductive NodeTag where
  | router | loader | specialist | cont | idle | terminal
  deriving DecidableEq, Repr

/-- `route_after_router`. -/
def route_after_router (s : OrchState) : NodeTag :=
  if pyTruthyStr s.current_skill then .loader else .idle

/-- `route_after_continue`. -/
def route_after_continue (s : OrchState) : NodeTag :=
  if pyTruthyStr s.current_skill then .specialist else .terminal

/-- The environment of one orchestrator run: the two registries, the
skill catalog handed to the router prompt, and the model/tool oracle. -/
structure OrchEnv where
  skillRegistry : List SkillDef
  toolRegistry : List String
  skillCatalog : List SkillDescription
  oracle : OrchOracle

/-- One engine transition: run the current node, merge its update, and
pick the next node along the graph's edges. -/
def stepOrch (env : OrchEnv) : NodeTag → OrchState → NodeTag × OrchState
  | .router, s =>
    let r := router_node env.skillCatalog env.oracle.route s.messages
    let s' := applyOrchUpdate s { current_skill := some r.1 }
    (route_after_router s', s')
  | .loader, s => (.specialist, applyOrchUpdate s (loader_node env.skillRegistry s))
  | .specialist, s =>
    (.cont, applyOrchUpdate s (specialist_node env.toolRegistry env.oracle s))
  | .cont, s =>
    let s' := applyOrchUpdate s (continue_check s)
    (route_after_continue s', s')
  | .idle, s => (.terminal, applyOrchUpdate s (idle_response_node env.oracle s))
  | .terminal, s => (.terminal, s)

/-- Fuelled run of the orchestrator graph from a node, counting visits
to the Specialist node; `none` = fuel exhausted before termination. -/
def runOrch (env : OrchEnv) (fuel : Nat) (t : NodeTag) (s : OrchState)
    (visits : Nat) : Option (OrchState × Nat) :=
  match fuel with
  | 0 => none
  | fuel + 1 =>
    if t = .terminal then some (s, visits)
    else
      let next := stepOrch env t s
      runOrch env fuel next.1 next.2
        (visits + (if t = .specialist then 1 else 0))

/-! ## Supervisor subgraph
(`app/agents/deep_researcher/supervisor_graph.py`, `state.py`)

`SupervisorState.supervisor_messages` and `.notes` carry the
`override_reducer`; the two supervisor nodes only ever return plain
lists for them, which take the reducer's `operator.add` path, so the
subgraph merge appends them.  `research_iterations` has no reducer and
is replaced.  The supervisor model completion and the researcher
subgraph invocation are oracles (`research`'s `Except.error` is the
exception `run_research` catches). -/

/-- `SupervisorState`. -/
structure SupState where
  supervisor_messages : List Msg
  research_brief : String
  notes : List String
  research_iterations : Nat
  deriving Repr

/-- A partial update returned by a supervisor node. -/
structure SupUpdate where
  supervisor_messages : Option (List Msg) := none
  notes : Option (List String) := none
  research_iterations : Option Nat := none
  deriving Repr, DecidableEq

/-- Merge a supervisor node update: `supervisor_messages` and `notes`
through `override_reducer`'s append path, `research_iterations`
replaced. -/
def applySupUpdate (s : SupState) (u : SupUpdate) : SupState where
  supervisor_messages := s.supervisor_messages ++ u.supervisor_messages.getD []
  research_brief := s.research_brief
  notes := s.notes ++ u.notes.getD []
  research_iterations := u.research_iterations.getD s.research_iterations

/-- The oracle for one supervisor-subgraph run: `supervise` is the
supervisor's model completion (content and tool calls), `research` is
one researcher-subgraph invocation on a topic (`Except.error` = the
subgraph raised). -/
structure SupOracle where
  supervise : List Msg → String × List ToolCall
  research : String → Except String String

/-- `lead_researcher_prompt.format(date=..., max_researcher_iterations=6,
max_concurrent_research_units=2)`: the formatted system prompt; its
text only reaches the model oracle, never the control flow. -/
def lead_researcher_prompt_formatted : String :=
  "lead_researcher_prompt(date, 6, 2)"

/-- `think_tool(reflection)`: deterministic acknowledgement string
(`app/agents/deep_researcher/tools.py`). -/
def think_tool (reflection : String) : String :=
  "思考已记录: " ++ reflection

/-- Where a supervisor node sends control next. -/
inductive SupGoto where
  | supervisor | tools | done
  deriving DecidableEq, Repr

/-- `supervisor_node`: ask the model with `ConductResearch`,
`ResearchComplete` and `think_tool` bound; `ResearchComplete` or an
empty tool-call list ends the subgraph, anything else goes to
`supervisor_tools`.  (The node has no exception handler.) -/
def supervisor_node (o : SupOracle) (state : SupState) :
    SupGoto × SupUpdate :=
  let messages :=
    [Msg.system lead_researcher_prompt_formatted,
     Msg.human ("研究简报: " ++ state.research_brief)]
      ++ state.supervisor_messages
  let c := o.supervise messages
  let response := Msg.ai c.1 c.2
  if c.2.isEmpty then
    (.done, { supervisor_messages := some [response] })
  else if c.2.any (fun tc => tc.name == "ResearchComplete") then
    (.done, { supervisor_messages := some [response] })
  else
    (.tools, { supervisor_messages := some [response] })

/-- The outcome `run_research` hands back for one delegation:
`success := false` carries the caught exception rendered as
`"研究失败: " ++ str(e)`. -/
structure ResearchOutcome where
  tool_call_id : String
  result : String
  success : Bool
  deriving Repr, DecidableEq

/-- `run_research(task)`: invoke the researcher subgraph on the topic;
a raised exception is caught and reported as a failure outcome. -/
def run_research (o : SupOracle) (tool_call_id research_topic : String) :
    ResearchOutcome :=
  match o.research research_topic with
  | .ok r => { tool_call_id := tool_call_id, result := r, success := true }
  | .error e =>
    { tool_call_id := tool_call_id, result := "研究失败: " ++ e, success := false }

/-- `MAX_ITERATIONS` from `supervisor_tools`. -/
def SUP_MAX_ITERATIONS : Nat := 6

/-- The command a supervisor node returns: next node plus update. -/
structure SupCommand where
  gotoEnd : Bool
  update : SupUpdate
  deriving Repr, DecidableEq

/-- `supervisor_tools`: split the last message's tool calls into
`think_tool` reflections (executed inline) and `ConductResearch`
delegations (run concurrently via `asyncio.gather`, whose result list
preserves task order), append one `ToolMessage` per call, accumulate
the successful results into `notes`, increment the round counter, and
force-terminate with a synthetic notice once the counter reaches the
ceiling.  Reading `supervisor_messages[-1].tool_calls` raises on an
empty transcript or a non-AI last message (`Except.error`). -/
def supervisor_tools (o : SupOracle) (state : SupState) :
    Except String SupCommand :=
  match state.supervisor_messages.getLast? with
  | none => .error "IndexError: supervisor_messages is empty"
  | some last =>
    match last with
    | .ai _ tcs =>
      let research_tasks := tcs.filterMap (fun tc =>
        if tc.name == "ConductResearch" then some (tc.id, tc.args) else none)
      let think_messages := tcs.filterMap (fun tc =>
        if tc.name == "think_tool"
        then some (Msg.tool (think_tool tc.args) tc.id "") else none)
      let results := research_tasks.map (fun task => run_research o task.1 task.2)
      let tool_messages :=
        think_messages ++ results.map (fun r => Msg.tool r.result r.tool_call_id "")
      let new_notes := (results.filter (fun r => r.success)).map (fun r => r.result)
      let new_iterations := state.research_iterations + 1
      if new_iterations ≥ SUP_MAX_ITERATIONS then
        .ok { gotoEnd := true
              update :=
                { supervisor_messages :=
                    some (tool_messages
                      ++ [Msg.tool "已达到最大研究迭代次数，自动结束研究。" "system_limit" ""])
                  notes := some (state.notes ++ new_notes)
                  research_iterations := some new_iterations } }
      else
        .ok { gotoEnd := false
              update :=
                { supervisor_messages := some tool_messages
                  notes := some (state.notes ++ new_notes)
                  research_iterations := some new_iterations } }
    | _ => .error "AttributeError: last message has no tool_calls"

/-- Supervisor subgraph node names. -/
inductive SupTag where
  | supervisor | supervisorTools | terminal
  deriving DecidableEq, Repr

/-- One supervisor-subgraph transition (an `Except.error` is an
uncaught exception escaping the run). -/
def stepSup (o : SupOracle) : SupTag → SupState →
    Except String (SupTag × SupState)
  | .supervisor, s =>
    let r := supervisor_node o s
    .ok (if r.1 = SupGoto.tools then .supervisorTools else .terminal,
         applySupUpdate s r.2)
  | .supervisorTools, s =>
    (supervisor_tools o s).map (fun cmd =>
      (if cmd.gotoEnd then SupTag.terminal else SupTag.supervisor,
       applySupUpdate s cmd.update))
  | .terminal, s => .ok (.terminal, s)

/-- Fuelled run of the supervisor subgraph, counting visits to
`supervisor_tools` (delegation rounds); `none` = fuel exhausted,
`some (.error e)` = a node raised, `some (.ok (s, rounds))` = the
subgraph terminated. -/
def runSup (o : SupOracle) (fuel : Nat) (t : SupTag) (s : SupState)
    (rounds : Nat) : Option (Except String (SupState × Nat)) :=
  match fuel with
  | 0 => none
  | fuel + 1 =>
    if t = .terminal then some (.ok (s, rounds))
    else
      match stepSup o t s with
      | .error e => some (.error e)
      | .ok next =>
        runSup o fuel next.1 next.2
          (rounds + (if t = .supervisorTools then 1 else 0))

/-! ## Final synthesis rendering (`app/agents/deep_researcher/main_graph.py`,
`format_task_decomposition`) -/

/-- The marker `format_task_decomposition` prints in front of subtask
`i`: `⭐` when `i` equals `minimum_viable_task_index`, the 1-based
ordinal otherwise. -/
def subtaskMarker (d : TaskDecomposition) (i : Nat) : String :=
  if (i : Int) = d.minimum_viable_task_index then "⭐"
  else toString (i + 1) ++ "."

/-- `format_task_decomposition`: render the decomposition as
Markdown. -/
def format_task_decomposition (d : TaskDecomposition) : String :=
  "# 📝 " ++ d.main_task_title ++ "\n\n"
    ++ "**描述**: " ++ d.main_task_description ++ "\n\n"
    ++ "## 🔹 子任务列表\n\n"
    ++ String.join (d.subtasks.enum.map (fun p =>
        subtaskMarker d p.1 ++ " **" ++ p.2.title ++ "** (优先级: "
          ++ toString p.2.priority ++ ")\n   " ++ p.2.description ++ "\n\n"))

/-! ## Proof-support predicates -/

/-- The premise of the iteration-ceiling claim: every model completion
the specialist requests succeeds and asks for at least one capability
call. -/
def AlwaysCallsTools (o : OrchOracle) : Prop :=
  ∀ msgs, ∃ c tcs, o.complete msgs = .ok (c, tcs) ∧ tcs ≠ []

/-- The state conditions the specialist loop preserves: a truthy active
skill and a nonempty, fully registered tool list. -/
def SpecialistInv (env : OrchEnv) (s : OrchState) : Prop :=
  pyTruthyStr s.current_skill = true ∧
  s.available_tools ≠ [] ∧
  s.available_tools.all (fun n => env.toolRegistry.contains n) = true

/-- The degraded update `loader_node` returns when the skill load
raises: `{"skill_sop": None, "available_tools": []}`. -/
def loaderDegradedUpdate : OrchUpdate :=
  { skill_sop := some none, available_tools := some [] }

/-! ## Concrete inputs used by witnesses and counterexamples -/

/-- A one-skill registry with the task-manager skill document. -/
def exSkillRegistry : List SkillDef :=
  [{ name := "task_manager", description := "Manage tasks"
     tools := ["task_create", "task_list"], sop := "Follow the task SOP." }]

/-- The registered tool names of the example environment. -/
def exToolRegistry : List String := ["task_create", "task_list", "note_search"]

/-- A router oracle that would activate the note manager if consulted. -/
def exRouterOracleA : RouterOracle :=
  { structuredRoute := .ok (some (SkillActivation.mk true (some "note_manager") "notes")),
    fallbackParsed := .ok none }

/-- A router oracle that always raises during classification. -/
def exRouterOracleB : RouterOracle :=
  { structuredRoute := .error "boom", fallbackParsed := .error "boom" }

/-- A message history whose last human message asks to delete a task. -/
def exDeleteTaskMsgs : List Msg :=
  [Msg.human "你好", Msg.ai "你好！" [], Msg.human "请帮我删除任务3"]

/-- An orchestrator oracle whose completions always request the same
single capability call. -/
def exLoopOracle : OrchOracle :=
  { route := exRouterOracleA
    complete := fun _ => .ok ("working", [{ name := "task_create", args := "", id := "call1" }])
    toolExec := fun _ _ => .ok "created"
    idleComplete := fun _ => .ok "hello" }

/-- The example environment for the specialist-loop run. -/
def exLoopEnv : OrchEnv :=
  { skillRegistry := exSkillRegistry, toolRegistry := exToolRegistry
    skillCatalog := [], oracle := exLoopOracle }

/-- A start state that has just routed to the task-manager skill. -/
def exLoopState : OrchState :=
  { messages := [Msg.human "创建任务"], current_skill := some "task_manager"
    skill_sop := none, available_tools := [], ui_commands := []
    iteration_count := 7 }

/-- A state whose selected skill does not exist in the registry. -/
def exMissingSkillState : OrchState :=
  { messages := [Msg.human "hi"], current_skill := some "ghost_skill"
    skill_sop := none, available_tools := [], ui_commands := []
    iteration_count := 3 }

/-- An orchestrator oracle whose completion requests one `task_` call
followed by one `note_` call. -/
def exTwoDomainOracle : OrchOracle :=
  { route := exRouterOracleA
    complete := fun _ => .ok ("mixed",
      [{ name := "task_create", args := "", id := "c1" },
       { name := "note_search", args := "", id := "c2" }])
    toolExec := fun _ _ => .ok "done"
    idleComplete := fun _ => .ok "hello" }

/-- A specialist state holding both a task tool and a note tool. -/
def exTwoDomainState : OrchState :=
  { messages := [Msg.human "整理一下"], current_skill := some "task_manager"
    skill_sop := some "sop", available_tools := ["task_create", "note_search"]
    ui_commands := [], iteration_count := 0 }

/-- A supervisor oracle that immediately signals completion. -/
def exCompleteSupOracle : SupOracle :=
  { supervise := fun _ => ("done", [{ name := "ResearchComplete", args := "", id := "r1" }])
    research := fun _ => .ok "findings" }

/-- A supervisor oracle for the mixed-outcome delegation round: topic
`"A"` succeeds, topic `"B"` raises. -/
def exMixedSupOracle : SupOracle :=
  { supervise := fun _ => ("", [])
    research := fun topic => if topic == "A" then .ok "compressed A" else .error "boom" }

/-- The initial supervisor state the main graph constructs. -/
def exSupInit : SupState :=
  { supervisor_messages := [], research_brief := "brief", notes := []
    research_iterations := 0 }

/-- A supervisor state whose last message delegates topics A and B. -/
def exSupDelegatingState : SupState :=
  { supervisor_messages :=
      [Msg.ai "delegating"
        [{ name := "ConductResearch", args := "A", id := "cA" },
         { name := "ConductResearch", args := "B", id := "cB" }]]
    research_brief := "brief", notes := [], research_iterations := 0 }

/-- Seventeen messages: three system instructions interleaved with
fourteen human messages. -/
def exWindowMsgs : List Msg :=
  [Msg.system "s1", Msg.human "m1", Msg.human "m2", Msg.human "m3",
   Msg.system "s2", Msg.human "m4", Msg.human "m5", Msg.human "m6",
   Msg.human "m7", Msg.human "m8", Msg.human "m9", Msg.human "m10",
   Msg.system "s3", Msg.human "m11", Msg.human "m12", Msg.human "m13",
   Msg.human "m14"]

/-- A schema-accepted decomposition whose minimum-viable index (99)
points at no subtask. -/
def exOutOfRangeDecomposition : TaskDecomposition :=
  { main_task_title := "准备项目演示PPT"
    main_task_description := "为项目准备演示文稿"
    subtasks :=
      [{ title := "收集素材", description := "整理项目资料", priority := 1 },
       { title := "搭建大纲", description := "列出演示结构", priority := 2 },
       { title := "制作幻灯片", description := "完成PPT制作", priority := 3 }]
    minimum_viable_task_index := 99 }

/-- A schema-accepted decomposition with an in-range index. -/
def exInRangeDecomposition : TaskDecomposition :=
  { exOutOfRangeDecomposition with minimum_viable_task_index := 0 }

/-! # Theorems -/

/-- C4: an override envelope carrying value `v` replaces the field's
entire prior content with exactly `v`, for every prior content; a
non-envelope (plain list) update is appended to the prior content
instead. -/
theorem override_envelope_replaces_else_appends
    (prior : PyVal) (entries : List (String × PyVal)) (v : PyVal)
    (htype : (dictGet entries "type" .vnone == PyVal.vstr "override") = true)
    (hval : dictGet entries "value" (.vdict entries) = v) :
    override_reducer prior (.vdict entries) = .ok v ∧
    ∀ (cur upd : List PyVal),
      override_reducer (.vlist cur) (.vlist upd) = .ok (.vlist (cur ++ upd)) := by
  constructor
  · rw [override_reducer, if_pos htype, hval]
  · intro cur upd
    rfl

/-- Witness for C4 at the canonical envelope
`{"type": "override", "value": ["n1"]}` over the prior content
`["old"]`, and the plain append `["a"] + ["b"]`. -/
theorem override_envelope_replaces_else_appends_witness :
    override_reducer (.vlist [.vstr "old"])
        (.vdict [("type", .vstr "override"), ("value", .vlist [.vstr "n1"])]) =
      .ok (.vlist [.vstr "n1"]) ∧
    override_reducer (.vlist [.vstr "a"]) (.vlist [.vstr "b"]) =
      .ok (.vlist [.vstr "a", .vstr "b"]) := by
  have h := override_envelope_replaces_else_appends (.vlist [.vstr "old"])
    [("type", .vstr "override"), ("value", .vlist [.vstr "n1"])]
    (.vlist [.vstr "n1"]) (by rfl) (by rfl)
  exact ⟨h.1, h.2 [.vstr "a"] [.vstr "b"]⟩

/-- C10: a dict tagged `type="override"` but lacking a `"value"` key is
returned itself (still containing its `"type"` key) as the field's new
value, for any prior content — so a list-valued field can become a
dict. -/
theorem override_envelope_without_value_returns_envelope
    (current : PyVal) (entries : List (String × PyVal))
    (htype : (dictGet entries "type" .vnone == PyVal.vstr "override") = true)
    (hnoval : entries.find? (fun p => p.1 == "value") = none) :
    override_reducer current (.vdict entries) = .ok (.vdict entries) := by
  rw [override_reducer, if_pos htype, dictGet, hnoval]

/-- Witness for C10: applying `{"type": "override"}` to the list
`["note1"]` yields the envelope dict itself. -/
theorem override_envelope_without_value_returns_envelope_witness :
    override_reducer (.vlist [.vstr "note1"])
        (.vdict [("type", .vstr "override")]) =
      .ok (.vdict [("type", .vstr "override")]) :=
  override_envelope_without_value_returns_envelope
    (.vlist [.vstr "note1"]) [("type", .vstr "override")] (by rfl) (by rfl)

/-- The sliding window never drops a system message: the system
messages of the output are exactly those of the input, for every
history and window size. -/
theorem apply_sliding_window_keeps_system (ms : List Msg) (w : Nat) :
    (apply_sliding_window ms w).filter Msg.isSystem =
      ms.filter Msg.isSystem := by
  unfold apply_sliding_window
  rw [List.filter_append]
  have hsys : (ms.filter Msg.isSystem).filter Msg.isSystem =
      ms.filter Msg.isSystem :=
    List.filter_eq_self.mpr (fun a ha => List.of_mem_filter ha)
  have hoth : ∀ l : List Msg,
      (∀ a ∈ l, a ∈ ms.filter (fun m => !m.isSystem)) →
      l.filter Msg.isSystem = [] := by
    intro l hl
    apply List.filter_eq_nil_iff.mpr
    intro a ha
    have := List.of_mem_filter (hl a ha)
    simp only [Bool.not_eq_true'] at this
    simp [this]
  split
  · rw [hsys, hoth _ (fun a ha => List.mem_of_mem_drop ha), List.append_nil]
  · rw [hsys, hoth _ (fun a ha => ha), List.append_nil]

/-- C6: on a history of 3 system messages and 14 non-system messages,
the sliding window with size 10 returns the 3 system messages followed
by the 10 most recent non-system messages in original order — 13
messages in all; and no input history ever loses a system message. -/
theorem apply_sliding_window_spec (msgs : List Msg)
    (h3 : (msgs.filter Msg.isSystem).length = 3)
    (h14 : (msgs.filter (fun m => !m.isSystem)).length = 14) :
    apply_sliding_window msgs 10 =
      msgs.filter Msg.isSystem ++
        (msgs.filter (fun m => !m.isSystem)).drop 4 ∧
    (apply_sliding_window msgs 10).length = 13 ∧
    ∀ (ms : List Msg) (w : Nat),
      (apply_sliding_window ms w).filter Msg.isSystem =
        ms.filter Msg.isSystem := by
  refine ⟨?_, ?_, fun ms w => apply_sliding_window_keeps_system ms w⟩
  · simp only [apply_sliding_window]
    rw [h14]
    norm_num
  · simp only [apply_sliding_window]
    rw [h14]
    norm_num
    rw [h3, h14]

/-- Witness for C6 on a concrete 17-message history: the output is the
three system messages followed by messages m5 … m14. -/
theorem apply_sliding_window_spec_witness :
    apply_sliding_window exWindowMsgs 10 =
      [Msg.system "s1", Msg.system "s2", Msg.system "s3",
       Msg.human "m5", Msg.human "m6", Msg.human "m7", Msg.human "m8",
       Msg.human "m9", Msg.human "m10", Msg.human "m11", Msg.human "m12",
       Msg.human "m13", Msg.human "m14"] ∧
    (apply_sliding_window exWindowMsgs 10).length = 13 := by
  have h := apply_sliding_window_spec exWindowMsgs (by rfl) (by rfl)
  exact ⟨by rw [h.1]; rfl, h.2.1⟩

/-- Counterexample to C9: the `TaskDecomposition` schema accepts a
record whose `minimum_viable_task_index` (99) lies outside
`[0, number of subtasks)` — pydantic constrains only the subtask count
and priorities — and the renderer then marks no subtask at all as the
minimum-viable task. -/
theorem taskDecomposition_index_unconstrained :
    TaskDecomposition.valid exOutOfRangeDecomposition = true ∧
    ¬(0 ≤ exOutOfRangeDecomposition.minimum_viable_task_index ∧
      exOutOfRangeDecomposition.minimum_viable_task_index <
        (exOutOfRangeDecomposition.subtasks.length : Int)) ∧
    strContains (format_task_decomposition exOutOfRangeDecomposition) "⭐"
      = false := by
  refine ⟨by decide, by decide, by decide⟩

/-- C9 (amended): a value accepted by the `TaskDecomposition` schema
has between 3 and 5 subtasks inclusive; the schema places no bound on
`minimum_viable_task_index`, so the index may point at no subtask. -/
theorem taskDecomposition_valid_subtask_count (d : TaskDecomposition)
    (h : TaskDecomposition.valid d = true) :
    3 ≤ d.subtasks.length ∧ d.subtasks.length ≤ 5 := by
  simp only [TaskDecomposition.valid, Bool.and_eq_true,
    decide_eq_true_eq] at h
  exact ⟨h.1.1, h.1.2⟩

/-- Witness for the amended C9 on a concrete accepted record. -/
theorem taskDecomposition_valid_subtask_count_witness :
    3 ≤ exInRangeDecomposition.subtasks.length ∧
      exInRangeDecomposition.subtasks.length ≤ 5 :=
  taskDecomposition_valid_subtask_count exInRangeDecomposition (by decide)

/-- `beginsWith` decides "p is a prefix of s". -/
theorem beginsWith_iff (s p : List Char) :
    beginsWith s p = true ↔ ∃ t, p ++ t = s := by
  induction p generalizing s with
  | nil => simp [beginsWith]
  | cons c cs ih =>
    cases s with
    | nil =>
      simp [beginsWith]
    | cons a as =>
      simp only [beginsWith, Bool.and_eq_true, beq_iff_eq, ih,
        List.cons_append, List.cons.injEq]
      constructor
      · rintro ⟨rfl, t, rfl⟩
        exact ⟨t, rfl, rfl⟩
      · rintro ⟨t, rfl, rfl⟩
        exact ⟨rfl, t, rfl⟩

/-- `containsSubL` decides "p occurs as a contiguous substring of s". -/
theorem containsSubL_iff (s p : List Char) :
    containsSubL s p = true ↔ ∃ pre suf, pre ++ p ++ suf = s := by
  induction s with
  | nil =>
    simp only [containsSubL, List.isEmpty_iff]
    constructor
    · rintro rfl
      exact ⟨[], [], rfl⟩
    · rintro ⟨pre, suf, h⟩
      rcases List.append_eq_nil.mp h with ⟨h1, -⟩
      exact (List.append_eq_nil.mp h1).2
  | cons c rest ih =>
    rw [containsSubL]
    simp only [Bool.or_eq_true, beginsWith_iff, ih]
    constructor
    · rintro (⟨t, ht⟩ | ⟨pre, suf, rfl⟩)
      · exact ⟨[], t, by simpa using ht⟩
      · exact ⟨c :: pre, suf, rfl⟩
    · rintro ⟨pre, suf, h⟩
      cases pre with
      | nil =>
        left
        exact ⟨suf, by simpa using h⟩
      | cons x xs =>
        right
        rw [List.cons_append, List.cons_append, List.cons.injEq] at h
        exact ⟨xs, suf, by simpa using h.2⟩

/-- Lowercasing the haystack preserves an occurrence of a pattern whose
characters are fixed points of lowercasing. -/
theorem strContains_pyLower (s pat : String)
    (hfix : pat.data.map Char.toLower = pat.data)
    (h : strContains s pat = true) :
    strContains (pyLower s) pat = true := by
  rw [strContains, containsSubL_iff] at h ⊢
  obtain ⟨pre, suf, hs⟩ := h
  refine ⟨pre.map Char.toLower, suf.map Char.toLower, ?_⟩
  have hdata : (pyLower s).data = s.data.map Char.toLower := rfl
  rw [hdata, ← hs]
  simp only [List.map_append, hfix]

/-- C3: when the last human message contains the literal substring
"删除任务", `router_node` selects `task_manager` on the keyword path —
zero model invocations — and its result is identical for any two model
oracles and any two skill catalogs. -/
theorem router_delete_task_keyword_deterministic (messages : List Msg)
    (m : Msg) (hlast : lastMsgWhere Msg.isHuman messages = some m)
    (hsub : strContains m.content "删除任务" = true)
    (catalog₁ catalog₂ : List SkillDescription)
    (o₁ o₂ : RouterOracle) :
    router_node catalog₁ o₁ messages = (some "task_manager", 0) ∧
    router_node catalog₂ o₂ messages = (some "task_manager", 0) := by
  have key : ∀ (catalog : List SkillDescription) (o : RouterOracle),
      router_node catalog o messages = (some "task_manager", 0) := by
    intro catalog o
    have hlow : strContains (pyLower m.content) "删除任务" = true :=
      strContains_pyLower _ _ (by decide) hsub
    have hany :
        (TASK_KEYWORDS.any fun k => strContains (pyLower m.content) k)
          = true :=
      List.any_eq_true.mpr ⟨"删除任务", by decide, hlow⟩
    unfold router_node
    rw [hlast]
    simp only [hany, if_true]
  exact ⟨key catalog₁ o₁, key catalog₂ o₂⟩

/-- Witness for C3: the concrete history ending in "请帮我删除任务3"
routes to `task_manager` with zero model calls under two different
oracles (one that would pick the note manager, one that raises). -/
theorem router_delete_task_keyword_deterministic_witness :
    router_node [] exRouterOracleA exDeleteTaskMsgs =
      (some "task_manager", 0) ∧
    router_node [SkillDescription.mk "task_manager" "tasks"]
        exRouterOracleB exDeleteTaskMsgs = (some "task_manager", 0) :=
  router_delete_task_keyword_deterministic exDeleteTaskMsgs
    (Msg.human "请帮我删除任务3") (by decide) (by decide) _ _ _ _

/-- C5: a `supervisor_tools` round delegating exactly topics A and B,
where A's researcher returns normally and B's raises, returns normally
(the exception is absorbed), appends one tool-result message for each
of A and B (B's reporting the failure as a descriptive string), and
accumulates exactly A's compressed result into the round's notes. -/
theorem supervisor_tools_mixed_round (o : SupOracle) (s : SupState)
    (c id₁ id₂ resA errB : String)
    (hlast : s.supervisor_messages.getLast? = some (Msg.ai c
      [{ name := "ConductResearch", args := "A", id := id₁ },
       { name := "ConductResearch", args := "B", id := id₂ }]))
    (hA : o.research "A" = .ok resA)
    (hB : o.research "B" = .error errB)
    (hnotes : s.notes = [])
    (hiter : s.research_iterations + 1 < SUP_MAX_ITERATIONS) :
    supervisor_tools o s = .ok (SupCommand.mk false
      (SupUpdate.mk
        (some [Msg.tool resA id₁ "", Msg.tool ("研究失败: " ++ errB) id₂ ""])
        (some [resA])
        (some (s.research_iterations + 1)))) := by
  have hlt : ¬ (s.research_iterations + 1 ≥ SUP_MAX_ITERATIONS) := by omega
  unfold supervisor_tools
  rw [hlast]
  simp [run_research, hA, hB, hnotes, think_tool, hlt]

/-- Witness for C5 with the concrete delegating state and the mixed
oracle (A succeeds with "compressed A", B raises "boom"). -/
theorem supervisor_tools_mixed_round_witness :
    supervisor_tools exMixedSupOracle exSupDelegatingState = .ok (SupCommand.mk false
      (SupUpdate.mk
        (some [Msg.tool "compressed A" "cA" "",
               Msg.tool ("研究失败: " ++ "boom") "cB" ""])
        (some ["compressed A"])
        (some 1))) :=
  supervisor_tools_mixed_round exMixedSupOracle exSupDelegatingState
    "delegating" "cA" "cB" "compressed A" "boom"
    (by rfl) (by rfl) (by rfl) (by rfl) (by decide)

/-- Counterexample to C7: with a skill name absent from the registry,
`load_skill` raises `FileNotFoundError`, but `loader_node` catches it
and returns the normal degraded update
`{"skill_sop": None, "available_tools": []}` instead of propagating the
error. -/
theorem loader_missing_skill_counterexample :
    load_skill exSkillRegistry "ghost_skill" =
      .error "FileNotFoundError: Skill ghost_skill not found" ∧
    loader_node exSkillRegistry exMissingSkillState = loaderDegradedUpdate ∧
    loaderDegradedUpdate.iteration_count = none :=
  ⟨rfl, rfl, rfl⟩

/-- C7 (amended): for every state whose selected skill name does not
resolve in the registry, `loader_node` absorbs the load error and
returns the degraded update `{"skill_sop": None, "available_tools": []}`
— in particular the iteration counter is not reset and no window is
applied. -/
theorem loader_missing_skill_degrades (registry : List SkillDef)
    (s : OrchState) (name e : String)
    (hskill : s.current_skill = some name)
    (hne : name.isEmpty = false)
    (hload : load_skill registry name = .error e) :
    loader_node registry s = loaderDegradedUpdate := by
  unfold loader_node get_skill_sop_for_injection
  rw [hskill]
  simp only [hne, Bool.false_eq_true, if_false, hload, Except.map]
  rfl

/-- Witness for the amended C7 on the concrete missing-skill state. -/
theorem loader_missing_skill_degrades_witness :
    loader_node exSkillRegistry exMissingSkillState =
      loaderDegradedUpdate :=
  loader_missing_skill_degrades exSkillRegistry exMissingSkillState
    "ghost_skill" "FileNotFoundError: Skill ghost_skill not found"
    (by rfl) (by rfl) (by rfl)

/-- Counterexample to C8: a visit whose completion invokes a `task_`
capability and then a `note_` capability produces only the tasks
refresh — the `break` exits the loop after the first match, so the
notes domain gets no refresh despite an invoked `note_` capability. -/
theorem specialist_ui_commands_counterexample :
    (specialist_node exToolRegistry exTwoDomainOracle exTwoDomainState).ui_commands
      = some [UICmd.mk "refresh" "tasks"] ∧
    exTwoDomainOracle.complete (specialistPrompt exTwoDomainState) =
      .ok ("mixed", [{ name := "task_create", args := "", id := "c1" },
                     { name := "note_search", args := "", id := "c2" }]) ∧
    strStarts "note_search" "note_" = true ∧
    UICmd.mk "refresh" "notes" ∉
      ((specialist_node exToolRegistry exTwoDomainOracle exTwoDomainState).ui_commands.getD [])
    := by
  refine ⟨by rfl, by rfl, by decide, by decide⟩

/-- C8 (amended): a Specialist visit emits at most one UI command in
total: a refresh for the domain (tasks/notes) of the first invoked
capability whose name starts with `task_` or `note_`, and nothing for
any later capability; when the completion requests no capability calls
the visit emits no UI commands (the field is not updated). -/
theorem specialist_ui_commands_first_match :
    (∀ tcs : List ToolCall, (computeUICommands tcs).length ≤ 1) ∧
    computeUICommands [] = [] ∧
    (∀ (tc : ToolCall) (rest : List ToolCall),
      strStarts tc.name "task_" = true →
      computeUICommands (tc :: rest) = [UICmd.mk "refresh" "tasks"]) ∧
    (∀ (tc : ToolCall) (rest : List ToolCall),
      strStarts tc.name "task_" = false → strStarts tc.name "note_" = true →
      computeUICommands (tc :: rest) = [UICmd.mk "refresh" "notes"]) ∧
    (∀ (tc : ToolCall) (rest : List ToolCall),
      strStarts tc.name "task_" = false → strStarts tc.name "note_" = false →
      computeUICommands (tc :: rest) = computeUICommands rest) ∧
    (∀ (toolReg : List String) (o : OrchOracle) (s : OrchState)
        (tools : List String) (c : String),
      s.available_tools.isEmpty = false →
      get_tools_by_names toolReg s.available_tools = .ok tools →
      o.complete (specialistPrompt s) = .ok (c, []) →
      (specialist_node toolReg o s).ui_commands = none) ∧
    (∀ (toolReg : List String) (o : OrchOracle) (s : OrchState)
        (tools : List String) (c : String) (tcs : List ToolCall)
        (fc : String) (ftc : List ToolCall),
      s.available_tools.isEmpty = false →
      get_tools_by_names toolReg s.available_tools = .ok tools →
      o.complete (specialistPrompt s) = .ok (c, tcs) → tcs ≠ [] →
      o.complete (specialistPrompt s ++ [Msg.ai c tcs]
        ++ tcs.map (execOneTool tools o)) = .ok (fc, ftc) →
      (specialist_node toolReg o s).ui_commands =
        some (computeUICommands tcs)) := by
  refine ⟨?_, rfl, ?_, ?_, ?_, ?_, ?_⟩
  · intro tcs
    induction tcs with
    | nil => simp [computeUICommands]
    | cons tc rest ih =>
      rw [computeUICommands]
      split
      · simp
      · split
        · simp
        · exact ih
  · intro tc rest h
    rw [computeUICommands, if_pos h]
  · intro tc rest h₁ h₂
    rw [computeUICommands, if_neg (by simp [h₁]), if_pos h₂]
  · intro tc rest h₁ h₂
    rw [computeUICommands, if_neg (by simp [h₁]), if_neg (by simp [h₂])]
  · intro toolReg o s tools c hne hok hcomp
    unfold specialist_node
    rw [hne]
    simp only [Bool.false_eq_true, if_false, hok, hcomp]
    rfl
  · intro toolReg o s tools c tcs fc ftc hne hok hcomp hne2 hcomp2
    unfold specialist_node
    rw [hne]
    simp only [Bool.false_eq_true, if_false, hok, hcomp]
    rw [if_neg (by simp [List.isEmpty_iff, hne2]), hcomp2]

/-- Witness for the amended C8: under the two-domain oracle, the
visit's UI commands equal the first-match computation on the two
requested calls. -/
theorem specialist_ui_commands_first_match_witness :
    (specialist_node exToolRegistry exTwoDomainOracle exTwoDomainState).ui_commands
      = some (computeUICommands
          [{ name := "task_create", args := "", id := "c1" },
           { name := "note_search", args := "", id := "c2" }]) :=
  specialist_ui_commands_first_match.2.2.2.2.2.2 exToolRegistry
    exTwoDomainOracle exTwoDomainState
    ["task_create", "note_search"] "mixed"
    [{ name := "task_create", args := "", id := "c1" },
     { name := "note_search", args := "", id := "c2" }]
    "mixed"
    [{ name := "task_create", args := "", id := "c1" },
     { name := "note_search", args := "", id := "c2" }]
    (by rfl) (by rfl) (by rfl) (by decide) (by rfl)

/-! ### Supervisor round-ceiling lemmas (C2) -/

/-- Every successful `supervisor_tools` call reports the round counter
incremented by exactly one. -/
theorem supervisor_tools_increments (o : SupOracle) (s : SupState)
    (cmd : SupCommand) (hok : supervisor_tools o s = .ok cmd) :
    cmd.update.research_iterations = some (s.research_iterations + 1) := by
  unfold supervisor_tools at hok
  cases hlast : s.supervisor_messages.getLast? with
  | none => rw [hlast] at hok; cases hok
  | some last =>
    rw [hlast] at hok
    cases last with
    | ai c tcs =>
      dsimp only at hok
      split at hok
      · cases hok; rfl
      · cases hok; rfl
    | system c => cases hok
    | human c => cases hok
    | tool c i n => cases hok

/-- A successful `supervisor_tools` call whose incremented counter has
reached the ceiling terminates the subgraph and appends the synthetic
limit-reached notice last. -/
theorem supervisor_tools_ceiling_stops (o : SupOracle) (s : SupState)
    (cmd : SupCommand) (hok : supervisor_tools o s = .ok cmd)
    (hge : SUP_MAX_ITERATIONS ≤ s.research_iterations + 1) :
    cmd.gotoEnd = true ∧
    ∃ pre, cmd.update.supervisor_messages =
      some (pre ++ [Msg.tool "已达到最大研究迭代次数，自动结束研究。" "system_limit" ""]) := by
  unfold supervisor_tools at hok
  cases hlast : s.supervisor_messages.getLast? with
  | none => rw [hlast] at hok; cases hok
  | some last =>
    rw [hlast] at hok
    cases last with
    | ai c tcs =>
      dsimp only at hok
      split at hok
      · cases hok; exact ⟨rfl, _, rfl⟩
      · next h => exact absurd hge h
    | system c => cases hok
    | human c => cases hok
    | tool c i n => cases hok

/-- A `supervisor_tools` call that loops back to the supervisor did so
below the ceiling. -/
theorem supervisor_tools_continue_below_ceiling (o : SupOracle)
    (s : SupState) (cmd : SupCommand)
    (hok : supervisor_tools o s = .ok cmd) (hgoto : cmd.gotoEnd = false) :
    s.research_iterations + 1 < SUP_MAX_ITERATIONS := by
  unfold supervisor_tools at hok
  cases hlast : s.supervisor_messages.getLast? with
  | none => rw [hlast] at hok; cases hok
  | some last =>
    rw [hlast] at hok
    cases last with
    | ai c tcs =>
      dsimp only at hok
      split at hok
      · cases hok; cases hgoto
      · next h => omega
    | system c => cases hok
    | human c => cases hok
    | tool c i n => cases hok

/-- `supervisor_node` never touches the round counter. -/
theorem supervisor_node_keeps_iterations (o : SupOracle) (s : SupState) :
    (supervisor_node o s).2.research_iterations = none := by
  unfold supervisor_node
  dsimp only
  split
  · rfl
  · split <;> rfl

/-- Invariant run lemma: starting with the round counter equal to the
rounds performed so far (and below the ceiling off the terminal node),
a terminating supervisor run performs at most 6 rounds. -/
theorem runSup_rounds_le_aux (o : SupOracle) :
    ∀ (fuel : Nat) (t : SupTag) (s : SupState) (rounds : Nat),
    s.research_iterations = rounds →
    (t ≠ SupTag.terminal → rounds ≤ 5) →
    (t = SupTag.terminal → rounds ≤ 6) →
    ∀ (sF : SupState) (r : Nat),
      runSup o fuel t s rounds = some (.ok (sF, r)) → r ≤ 6 := by
  intro fuel
  induction fuel with
  | zero =>
    intro t s rounds _ _ _ sF r h
    cases h
  | succ fuel ih =>
    intro t s rounds hinv h5 h6 sF r h
    rw [runSup] at h
    by_cases ht : t = SupTag.terminal
    · rw [if_pos ht] at h
      cases h
      exact h6 ht
    · rw [if_neg ht] at h
      cases t with
      | terminal => exact absurd rfl ht
      | supervisor =>
        dsimp only [stepSup] at h
        simp only [reduceCtorEq, if_false, Nat.add_zero] at h
        refine ih _ _ rounds ?_ ?_ ?_ sF r h
        · simp [applySupUpdate, supervisor_node_keeps_iterations, hinv]
        · intro _
          exact h5 ht
        · intro _
          exact Nat.le_trans (h5 ht) (by omega)
      | supervisorTools =>
        dsimp only [stepSup] at h
        cases hst : supervisor_tools o s with
        | error e => rw [hst] at h; simp [Except.map] at h
        | ok cmd =>
          rw [hst] at h
          simp only [Except.map, reduceCtorEq, if_true, if_false] at h
          have hiter := supervisor_tools_increments o s cmd hst
          have hinv' : (applySupUpdate s cmd.update).research_iterations
              = rounds + 1 := by
            simp [applySupUpdate, hiter, hinv]
          cases hgoto : cmd.gotoEnd with
          | false =>
            rw [hgoto] at h
            have hlt := supervisor_tools_continue_below_ceiling o s cmd hst hgoto
            rw [SUP_MAX_ITERATIONS, hinv] at hlt
            refine ih _ _ (rounds + 1) hinv' ?_ ?_ sF r (by simpa using h)
            · intro _; omega
            · intro _; omega
          | true =>
            rw [hgoto] at h
            refine ih _ _ (rounds + 1) hinv' ?_ ?_ sF r (by simpa using h)
            · intro hne; cases hne rfl
            · intro _
              have := h5 ht
              omega

/-- C2: every `supervisor_tools` visit increments `research_iterations`
by exactly one; once the incremented counter reaches the ceiling 6 the
subgraph terminates at once with the synthetic limit-reached tool
message appended; hence a supervisor run started at counter 0 performs
at most 6 delegation rounds for every model behaviour. -/
theorem supervisor_round_ceiling :
    (∀ (o : SupOracle) (s : SupState) (cmd : SupCommand),
      supervisor_tools o s = .ok cmd →
      cmd.update.research_iterations = some (s.research_iterations + 1)) ∧
    (∀ (o : SupOracle) (s : SupState) (cmd : SupCommand),
      supervisor_tools o s = .ok cmd →
      SUP_MAX_ITERATIONS ≤ s.research_iterations + 1 →
      cmd.gotoEnd = true ∧
      ∃ pre, cmd.update.supervisor_messages =
        some (pre ++ [Msg.tool "已达到最大研究迭代次数，自动结束研究。" "system_limit" ""])) ∧
    (∀ (o : SupOracle) (fuel : Nat) (s₀ : SupState),
      s₀.research_iterations = 0 →
      ∀ (sF : SupState) (r : Nat),
        runSup o fuel SupTag.supervisor s₀ 0 = some (.ok (sF, r)) →
        r ≤ 6) := by
  refine ⟨supervisor_tools_increments, supervisor_tools_ceiling_stops, ?_⟩
  intro o fuel s₀ h0 sF r h
  exact runSup_rounds_le_aux o fuel SupTag.supervisor s₀ 0 h0
    (fun _ => by omega) (fun _ => by omega) sF r h

/-- Witness for C2: the mixed-oracle round increments the counter from
0 to 1, and a run whose supervisor immediately signals completion
terminates with 0 ≤ 6 rounds. -/
theorem supervisor_round_ceiling_witness :
    (SupCommand.mk false
      (SupUpdate.mk
        (some [Msg.tool "compressed A" "cA" "", Msg.tool "研究失败: boom" "cB" ""])
        (some ["compressed A"]) (some 1))).update.research_iterations =
      some (exSupDelegatingState.research_iterations + 1) ∧
    runSup exCompleteSupOracle 3 SupTag.supervisor exSupInit 0 =
      some (.ok (SupState.mk
        [Msg.ai "done" [ToolCall.mk "ResearchComplete" "" "r1"]]
        "brief" [] 0, 0)) ∧
    (0 : Nat) ≤ 6 := by
  refine ⟨supervisor_round_ceiling.1 exMixedSupOracle exSupDelegatingState
    _ rfl, rfl, supervisor_round_ceiling.2.2 exCompleteSupOracle 3
      exSupInit rfl _ 0 rfl⟩

/-! ### Specialist-loop iteration-ceiling lemmas (C1) -/

/-- Unfolding equation for one fuelled engine step. -/
theorem runOrch_succ (env : OrchEnv) (fuel : Nat) (t : NodeTag)
    (s : OrchState) (visits : Nat) :
    runOrch env (fuel + 1) t s visits =
      if t = .terminal then some (s, visits)
      else
        runOrch env fuel (stepOrch env t s).1 (stepOrch env t s).2
          (visits + (if t = .specialist then 1 else 0)) := rfl

/-- Success of a fuelled run is stable under extra fuel. -/
theorem runOrch_fuel_mono (env : OrchEnv) :
    ∀ (fuel : Nat) (t : NodeTag) (s : OrchState) (v : Nat)
      (res : OrchState × Nat),
    runOrch env fuel t s v = some res →
    runOrch env (fuel + 1) t s v = some res := by
  intro fuel
  induction fuel with
  | zero => intro t s v res h; cases h
  | succ fuel ih =>
    intro t s v res h
    rw [runOrch_succ] at h ⊢
    by_cases ht : t = .terminal
    · rwa [if_pos ht] at h ⊢
    · rw [if_neg ht] at h ⊢
      exact ih _ _ _ _ h

/-- Success of a fuelled run is stable under any amount of extra
fuel. -/
theorem runOrch_fuel_mono_add (env : OrchEnv) (fuel : Nat) (t : NodeTag)
    (s : OrchState) (v : Nat) (res : OrchState × Nat)
    (h : runOrch env fuel t s v = some res) :
    ∀ d, runOrch env (fuel + d) t s v = some res := by
  intro d
  induction d with
  | zero => exact h
  | succ d ih => exact runOrch_fuel_mono env _ _ _ _ _ ih

/-- The last message matching `p` in `xs ++ [m]` is `m` when `p m`. -/
theorem lastMsgWhere_append_last (p : Msg → Bool) (xs : List Msg)
    (m : Msg) (h : p m = true) :
    lastMsgWhere p (xs ++ [m]) = some m := by
  induction xs with
  | nil => simp [lastMsgWhere, h]
  | cons x xs ih => simp [lastMsgWhere, ih]

/-- Merging the empty update is the identity. -/
theorem applyOrchUpdate_empty (s : OrchState) :
    applyOrchUpdate s {} = s := by
  cases s
  simp [applyOrchUpdate]

/-- One loader step under a resolving skill: control moves to the
specialist with the iteration counter reset to 0, the active skill
kept, and the skill's tools installed. -/
theorem stepOrch_loader_step (env : OrchEnv) (s : OrchState)
    (name : String) (skill : SkillDef)
    (hskill : s.current_skill = some name) (hne : name.isEmpty = false)
    (hload : load_skill env.skillRegistry name = .ok skill) :
    ∃ s', stepOrch env .loader s = (.specialist, s') ∧
      s'.iteration_count = 0 ∧ s'.current_skill = some name ∧
      s'.available_tools = skill.tools := by
  have hstep : stepOrch env .loader s =
      (.specialist, applyOrchUpdate s (loader_node env.skillRegistry s)) :=
    rfl
  obtain ⟨sop, hsop⟩ : ∃ sop,
      get_skill_sop_for_injection env.skillRegistry name = .ok sop := by
    unfold get_skill_sop_for_injection
    rw [hload]
    exact ⟨_, rfl⟩
  have hnode : loader_node env.skillRegistry s =
      { messages := some (apply_sliding_window s.messages 10),
        skill_sop := some (some sop), available_tools := some skill.tools,
        iteration_count := some 0 } := by
    unfold loader_node
    rw [hskill]
    simp only [hne, Bool.false_eq_true, if_false, hload, hsop]
  refine ⟨_, hstep, ?_, ?_, ?_⟩ <;>
    rw [hnode] <;> simp [applyOrchUpdate, hskill]

/-- One specialist step under an always-delegating oracle: control
moves to the continuation check with the counter incremented, skill and
tools untouched, and the transcript now ending in an `AIMessage` that
requests further tool calls. -/
theorem stepOrch_specialist_step (env : OrchEnv) (s : OrchState)
    (hor : AlwaysCallsTools env.oracle) (hinv : SpecialistInv env s) :
    ∃ s', stepOrch env .specialist s = (.cont, s') ∧
      s'.iteration_count = s.iteration_count + 1 ∧
      s'.current_skill = s.current_skill ∧
      s'.available_tools = s.available_tools ∧
      ∃ fc ftc, ftc ≠ [] ∧
        lastMsgWhere Msg.isAI s'.messages = some (Msg.ai fc ftc) := by
  obtain ⟨hskill, htools, hreg⟩ := hinv
  obtain ⟨c, tcs, hc, htcs⟩ := hor (specialistPrompt s)
  obtain ⟨fc, ftc, hfc, hftc⟩ := hor (specialistPrompt s ++ [Msg.ai c tcs]
    ++ tcs.map (execOneTool s.available_tools env.oracle))
  have hempty : s.available_tools.isEmpty = false := by
    simp [List.isEmpty_iff, htools]
  have hgtools : get_tools_by_names env.toolRegistry s.available_tools =
      .ok s.available_tools := by
    unfold get_tools_by_names
    rw [hreg]
    rfl
  have hnode : specialist_node env.toolRegistry env.oracle s =
      { messages := some ([Msg.ai c tcs]
          ++ tcs.map (execOneTool s.available_tools env.oracle)
          ++ [Msg.ai fc ftc]),
        iteration_count := some (s.iteration_count + 1),
        ui_commands := some (computeUICommands tcs) } := by
    unfold specialist_node
    rw [hempty]
    simp only [Bool.false_eq_true, if_false, hgtools, hc]
    rw [if_neg (by simp [List.isEmpty_iff, htcs])]
    rw [hfc]
  refine ⟨_, rfl, ?_, ?_, ?_, fc, ftc, hftc, ?_⟩
  · rw [hnode]; rfl
  · rw [hnode]; rfl
  · rw [hnode]; rfl
  · have hmsgs : (applyOrchUpdate s
        (specialist_node env.toolRegistry env.oracle s)).messages =
        (s.messages ++ [Msg.ai c tcs]
          ++ tcs.map (execOneTool s.available_tools env.oracle))
          ++ [Msg.ai fc ftc] := by
      rw [hnode]
      simp [applyOrchUpdate, List.append_assoc]
    rw [hmsgs]
    exact lastMsgWhere_append_last _ _ _ rfl

/-- One continuation-check step below the ceiling with pending tool
calls: control loops back to the specialist and the state is
unchanged. -/
theorem stepOrch_cont_loop (env : OrchEnv) (s : OrchState)
    (hlt : s.iteration_count < MAX_ITERATIONS)
    (fc : String) (ftc : List ToolCall) (hftc : ftc ≠ [])
    (hlast : lastMsgWhere Msg.isAI s.messages = some (Msg.ai fc ftc))
    (hskill : pyTruthyStr s.current_skill = true) :
    stepOrch env .cont s = (.specialist, s) := by
  have hcc : continue_check s = {} := by
    unfold continue_check
    rw [if_neg (by omega), hlast]
    dsimp only [Msg.toolCalls]
    rw [if_neg (by simp [List.isEmpty_iff, hftc])]
  have hstep : stepOrch env .cont s =
      (route_after_continue (applyOrchUpdate s (continue_check s)),
       applyOrchUpdate s (continue_check s)) := rfl
  rw [hstep, hcc, applyOrchUpdate_empty]
  unfold route_after_continue
  rw [hskill]
  rfl

/-- One continuation-check step at the ceiling: the active skill is
cleared and the run moves to the terminal node. -/
theorem stepOrch_cont_stop (env : OrchEnv) (s : OrchState)
    (hge : MAX_ITERATIONS ≤ s.iteration_count) :
    ∃ s', stepOrch env .cont s = (.terminal, s') ∧
      s'.current_skill = none := by
  have hcc : continue_check s = { current_skill := some none } := by
    unfold continue_check
    rw [if_pos hge]
  have hstep : stepOrch env .cont s =
      (route_after_continue (applyOrchUpdate s (continue_check s)),
       applyOrchUpdate s (continue_check s)) := rfl
  rw [hstep, hcc]
  exact ⟨_, rfl, rfl⟩

/-- The specialist/continuation loop with `r` remaining visits (counter
at `15 - r`) terminates with exactly 15 total visits and the skill
cleared. -/
theorem runOrch_specialist_loop (env : OrchEnv)
    (hor : AlwaysCallsTools env.oracle) :
    ∀ (r k : Nat) (s : OrchState), k + r = 15 → 1 ≤ r →
    SpecialistInv env s → s.iteration_count = k →
    ∃ sF, runOrch env (2 * r + 1) NodeTag.specialist s k = some (sF, 15) ∧
      sF.current_skill = none := by
  intro r
  induction r with
  | zero =>
    intro k s _ hr
    exact absurd hr (by omega)
  | succ r ih =>
    intro k s hk hr hinv hcount
    obtain ⟨s', hstep, hcount', hskill', htools', fc, ftc, hftc, hlast⟩ :=
      stepOrch_specialist_step env s hor hinv
    have h1 : runOrch env (2 * (r + 1) + 1) NodeTag.specialist s k =
        runOrch env (2 * r + 2) NodeTag.cont s' (k + 1) := by
      rw [show 2 * (r + 1) + 1 = (2 * r + 2) + 1 by ring, runOrch_succ]
      simp [hstep]
    by_cases hr0 : r = 0
    · subst hr0
      have hge : MAX_ITERATIONS ≤ s'.iteration_count := by
        rw [hcount', hcount, MAX_ITERATIONS]
        omega
      obtain ⟨s'', hstep2, hnone⟩ := stepOrch_cont_stop env s' hge
      have hk15 : k + 1 = 15 := by omega
      refine ⟨s'', ?_, hnone⟩
      rw [h1, show 2 * 0 + 2 = 1 + 1 by ring, runOrch_succ]
      simp only [reduceCtorEq, if_false, hstep2]
      rw [runOrch_succ]
      simp only [if_true, reduceCtorEq, if_false, Nat.add_zero]
      rw [hk15]
    · have hlt : s'.iteration_count < MAX_ITERATIONS := by
        rw [hcount', hcount, MAX_ITERATIONS]
        omega
      have hskill'' : pyTruthyStr s'.current_skill = true := by
        rw [hskill']
        exact hinv.1
      have hstep2 := stepOrch_cont_loop env s' hlt fc ftc hftc hlast hskill''
      have h2 : runOrch env (2 * r + 2) NodeTag.cont s' (k + 1) =
          runOrch env (2 * r + 1) NodeTag.specialist s' (k + 1) := by
        rw [show 2 * r + 2 = (2 * r + 1) + 1 from rfl, runOrch_succ]
        simp [hstep2]
      have hinv' : SpecialistInv env s' := by
        refine ⟨hskill'', ?_, ?_⟩
        · rw [htools']
          exact hinv.2.1
        · rw [htools']
          exact hinv.2.2
      obtain ⟨sF, hF, hFn⟩ := ih (k + 1) s' (by omega) (by omega) hinv'
        (by rw [hcount', hcount])
      exact ⟨sF, by rw [h1, h2]; exact hF, hFn⟩

/-- C1: starting from the loader with a resolving skill whose tools all
register, under a model oracle whose every completion (initial and
post-tool follow-up alike) requests at least one capability call, the
specialist run terminates with exactly 15 Specialist visits and the
active skill cleared to `None` — stably under any surplus fuel. -/
theorem specialist_loop_fifteen_visits (env : OrchEnv) (s : OrchState)
    (name : String) (skill : SkillDef)
    (hor : AlwaysCallsTools env.oracle)
    (hskill : s.current_skill = some name)
    (hne : name.isEmpty = false)
    (hload : load_skill env.skillRegistry name = .ok skill)
    (htools : skill.tools ≠ [])
    (hreg : skill.tools.all (fun n => env.toolRegistry.contains n) = true) :
    ∃ sF, runOrch env 32 NodeTag.loader s 0 = some (sF, 15) ∧
      (∀ extra, runOrch env (32 + extra) NodeTag.loader s 0 = some (sF, 15)) ∧
      sF.current_skill = none := by
  obtain ⟨s₁, hstep, hc0, hcs, hat⟩ :=
    stepOrch_loader_step env s name skill hskill hne hload
  have hinv₁ : SpecialistInv env s₁ := by
    refine ⟨?_, ?_, ?_⟩
    · rw [hcs]
      simp [pyTruthyStr, hne]
    · rw [hat]
      exact htools
    · rw [hat]
      exact hreg
  obtain ⟨sF, hrun, hnone⟩ :=
    runOrch_specialist_loop env hor 15 0 s₁ (by omega) (by omega) hinv₁ hc0
  have h32 : runOrch env 32 NodeTag.loader s 0 = some (sF, 15) := by
    rw [show (32 : Nat) = 31 + 1 from rfl, runOrch_succ]
    simp only [reduceCtorEq, if_false, hstep, Nat.add_zero]
    exact hrun
  exact ⟨sF, h32, fun extra => runOrch_fuel_mono_add env 32 _ _ _ _ h32 extra,
    hnone⟩

/-- Witness for C1: the concrete always-delegating oracle and
task-manager skill terminate with exactly 15 Specialist visits and the
skill cleared. -/
theorem specialist_loop_fifteen_visits_witness :
    (runOrch exLoopEnv 32 NodeTag.loader exLoopState 0).map
      (fun p => p.2) = some 15 ∧
    (runOrch exLoopEnv 32 NodeTag.loader exLoopState 0).map
      (fun p => p.1.current_skill) = some none := by
  obtain ⟨sF, h32, _, hnone⟩ := specialist_loop_fifteen_visits exLoopEnv
    exLoopState "task_manager"
    { name := "task_manager", description := "Manage tasks",
      tools := ["task_create", "task_list"], sop := "Follow the task SOP." }
    (fun msgs => ⟨"working",
      [{ name := "task_create", args := "", id := "call1" }], rfl,
      by simp⟩)
    rfl rfl rfl (by simp) (by decide)
  rw [h32]
  exact ⟨rfl, by simp [hnone]⟩

end PGOS
